import Mathlib

/-!
Shallow embedding of the metadata-acquisition and rarity-scoring pipeline of
`src/app.py` (the `analyze` handler, lines 53-161, and its inner
`fetch_metadata`, lines 86-96), together with theorems settling the frozen
claims about it.

A fetched JSON document is abstracted by exactly the observations the
pipeline makes of it: its Python truthiness (`if data:` at line 103) and its
`"attributes"` field (`data.get("attributes", [])` at lines 105, 116, 128).
Trait values are scalars (the spec's data model: `value: any scalar`),
modelled by the inductive `Value`.  Rationals stand in for Python floats, so
arithmetic identities are exact.
-/

namespace TgBot

/-- A scalar trait value as found in token JSON. -/
inductive Value where
  | str (s : String)
  | int (n : Int)
  | boolean (b : Bool)
  | null
deriving DecidableEq, Repr

/-- One element of an `"attributes"` array, abstracted by the only test the
code applies to it (`isinstance(attr, dict) and "trait_type" in attr and
"value" in attr`, lines 106, 114, 133): either a dict carrying both keys,
or anything else, which every loop skips. -/
inductive Entry where
  | attr (trait : String) (value : Value)
  | other
deriving DecidableEq, Repr

/-- Whether an entry is shaped as a dict with both a trait_type and a value
key (the guard at lines 106, 114 and 133). -/
def Entry.isShapedAttr : Entry → Bool
  | .attr _ _ => true
  | .other => false

/-- The shape of a document's `"attributes"` field: a JSON array of entries,
a JSON object mapping trait names directly to values, or absent (in which
case `.get("attributes", [])` yields the empty list). -/
inductive AttrField where
  | list (es : List Entry)
  | mapping (kvs : List (String × Value))
  | missing
deriving DecidableEq, Repr

/-- A fetched metadata document, abstracted by the two observations the
pipeline makes of it: its Python truthiness and its attributes field. -/
structure Doc where
  truthy : Bool
  attrs : AttrField
deriving DecidableEq, Repr

/-- What Python iterates over at the counting and validity stages
(`for attr in data.get("attributes", [])`, lines 105 and 116), where the
field is read RAW: an array yields its entries; a dict yields its keys,
which are strings and therefore never pass the `isinstance(attr, dict)`
test (modelled as `Entry.other`); a missing field yields nothing. -/
def AttrField.iterRaw : AttrField → List Entry
  | .list es => es
  | .mapping kvs => kvs.map fun _ => Entry.other
  | .missing => []

/-- What the scoring stage iterates over (lines 128-130): the field is
re-read and, when it is a dict, rewritten to a list of
`{"trait_type": k, "value": v}` entries before the loop. -/
def AttrField.normalize : AttrField → List Entry
  | .list es => es
  | .mapping kvs => kvs.map fun kv => Entry.attr kv.1 kv.2
  | .missing => []

/-- The (trait_type, value) pairs of the entries that pass the
`isinstance(attr, dict) and "trait_type" in attr and "value" in attr`
guard, in order. -/
def qualifying (es : List Entry) : List (String × Value) :=
  es.filterMap fun e =>
    match e with
    | .attr t v => some (t, v)
    | .other => none

/-- The `trait_counter` table, `defaultdict(Counter)` at line 84: an
association list from (trait_type, value) to its count.  Keys are unique by
construction (`bump` never duplicates a key). -/
abbrev Freq := List ((String × Value) × Nat)

/-- `trait_counter[attr["trait_type"]][attr["value"]] += 1` (line 107):
increment the entry for the key, appending a fresh entry with count 1 when
the key is absent. -/
def bump (f : Freq) (k : String × Value) : Freq :=
  match f with
  | [] => [(k, 1)]
  | (k', n) :: rest => if k' = k then (k', n + 1) :: rest else (k', n) :: bump rest k

/-- `trait_counter[trait][val]` (line 136): a `Counter` reads a missing key
as 0.  Since keys are unique, summing the matching entries equals the
dictionary lookup. -/
def lookupFreq (f : Freq) (k : String × Value) : Nat :=
  ((f.filter fun e => e.1 = k).map fun e => e.2).sum

/-- Total count mass a trait_type holds in the table:
`sum(trait_counter[t].values())` restricted to trait `t`. -/
def traitSum (f : Freq) (t : String) : Nat :=
  ((f.filter fun e => e.1.1 = t).map fun e => e.2).sum

/-- The result of the concurrent fetch stage, in completion order: each
token id paired with the parsed document, or `none` when every
gateway/suffix combination failed. -/
abbrev FetchResults := List (Int × Option Doc)

/-- The `jsons` mapping built at lines 102-104: a result enters it only when
the fetch produced a document (`data is not None`) that is Python-truthy
(`if data:`). -/
def fetchedDocs (results : FetchResults) : List (Int × Doc) :=
  results.filterMap fun r =>
    match r.2 with
    | some d => if d.truthy then some (r.1, d) else none
    | none => none

/-- The trait frequency index accumulated at lines 105-107: for every kept
document, iterate its RAW attributes field and count each qualifying
(trait_type, value) pair. -/
def buildFreq (docs : List (Int × Doc)) : Freq :=
  docs.foldl (fun f d => (qualifying d.2.attrs.iterRaw).foldl bump f) []

/-- The `has_valid_attributes` check at lines 113-117: does any kept
document's RAW attributes iteration contain a qualifying entry? -/
def hasValidAttributes (docs : List (Int × Doc)) : Bool :=
  docs.any fun d => !(qualifying d.2.attrs.iterRaw).isEmpty

/-- The number of times pair `k` occurs across the RAW (counting-stage)
attribute iterations of all kept documents. -/
def countedOccurrences (docs : List (Int × Doc)) (k : String × Value) : Nat :=
  (docs.map fun d => (qualifying d.2.attrs.iterRaw).count k).sum

/-- Written from the spec's words, for comparison with `buildFreq`: the
number of times pair `k` occurs across the NORMALIZED attribute lists of
all kept documents ("the number of occurrences of that pair across the
normalized attribute lists of all fetched tokens"). -/
def specNormalizedCount (docs : List (Int × Doc)) (k : String × Value) : Nat :=
  (docs.map fun d => (qualifying d.2.attrs.normalize).count k).sum

/-- `flat_traits[trait] = val` (line 138): Python dict assignment keeps the
key's original position and overwrites its value, appending when absent. -/
def setKey (m : List (String × Value)) (t : String) (v : Value) : List (String × Value) :=
  match m with
  | [] => [(t, v)]
  | (t', v') :: rest => if t' = t then (t', v) :: rest else (t', v') :: setKey rest t v

/-- One iteration of the scoring loop (lines 132-139): a qualifying entry
adds `1 / (freq / total_tokens)` to the running score and records the trait
in `flat_traits`; any other entry is skipped. -/
def scoreStep (f : Freq) (total : Nat) :
    ℚ × List (String × Value) → Entry → ℚ × List (String × Value)
  | acc, .attr t v =>
      (acc.1 + 1 / ((lookupFreq f (t, v) : ℚ) / (total : ℚ)), setKey acc.2 t v)
  | acc, .other => acc

/-- The whole scoring loop for one token: running score starts at `0.0`
(line 125) and `flat_traits` at `{}` (line 126). -/
def scoreToken (f : Freq) (total : Nat) (es : List Entry) : ℚ × List (String × Value) :=
  es.foldl (scoreStep f total) (0, [])

/-- `round(score, 4)` (line 142), as exact rounding of a rational to four
decimal digits. -/
def round4 (q : ℚ) : ℚ :=
  (round (q * 10000) : ℤ) / 10000

/-- One row of `rarity_data` (lines 140-144): the token id, the score
rounded once at the end, and the flattened traits. -/
structure RarityRecord where
  token_id : Int
  rarity_score : ℚ
  traits : List (String × Value)
deriving DecidableEq, Repr

/-- The `rarity_data` list built at lines 122-144: for every kept document,
in insertion order, score its NORMALIZED attributes against the table and
the total token count. -/
def rarityData (docs : List (Int × Doc)) : List RarityRecord :=
  docs.map fun d =>
    let st := scoreToken (buildFreq docs) docs.length d.2.attrs.normalize
    { token_id := d.1, rarity_score := round4 st.1, traits := st.2 }

/-- `df["rarity_score"].rank(ascending=False, method="min").astype(int)`
(line 147): with no missing values, the min-method descending rank of an
entry is one plus the number of entries with a strictly greater score. -/
def rankMin (scores : List ℚ) : List Nat :=
  scores.map fun s => 1 + (scores.filter fun x => s < x).length

/-- `df = df.sort_values("rarity_rank")` (line 148): sort rows ascending by
rank (insertion sort; pandas does not pin the order among equal ranks). -/
def sortByRank (rows : List (RarityRecord × Nat)) : List (RarityRecord × Nat) :=
  rows.foldr insertRow []
where
  insertRow (r : RarityRecord × Nat) : List (RarityRecord × Nat) → List (RarityRecord × Nat)
    | [] => [r]
    | x :: xs => if r.2 ≤ x.2 then r :: x :: xs else x :: insertRow r xs

/-- How one `/analyze` run ends, after the argument checks: each error
constructor is one of the handler's early-return replies, and `success`
carries the two artifacts (lines 146-153): the ranked report rows and the
archive of verbatim kept documents keyed `token_id`. -/
inductive Outcome where
  | usageError
  | nonIntegerBounds
  | noMetadata
  | noValidAttributes
  | success (report : List (RarityRecord × Nat)) (archive : List (Int × Doc))
deriving DecidableEq, Repr

/-- The pipeline from the fetched results onward (lines 102-153): keep
truthy documents, bail out on an empty set (lines 109-111), bail out when no
raw attribute entry qualifies (lines 113-120), otherwise score, rank, sort
and emit the two artifacts. -/
def analyzeCore (results : FetchResults) : Outcome :=
  let docs := fetchedDocs results
  if docs.isEmpty then .noMetadata
  else if !hasValidAttributes docs then .noValidAttributes
  else
    let recs := rarityData docs
    .success (sortByRank (recs.zip (rankMin (recs.map fun r => r.rarity_score)))) docs

/-- `range(start, end + 1)` (line 100) over Python integers: empty when
`start > end`. -/
def tokenRange (s e : Int) : List Int :=
  (List.range (e + 1 - s).toNat).map fun i => s + i

/-- Python `int(s)` on the strings the handler can receive (lines 65-66):
after stripping surrounding whitespace, an optional sign followed by at
least one decimal digit parses; anything else raises, which the handler's
`except` turns into the error reply. -/
def digitsToNat (cs : List Char) : Option Nat :=
  if cs.isEmpty then none
  else if cs.all fun c => c.isDigit then
    some (cs.foldl (fun n c => 10 * n + (c.toNat - 48)) 0)
  else none

def pyStrip (cs : List Char) : List Char :=
  ((cs.dropWhile fun c => c.isWhitespace).reverse.dropWhile fun c => c.isWhitespace).reverse

def toIntPy (s : String) : Option Int :=
  match pyStrip s.data with
  | '-' :: cs => (digitsToNat cs).map fun n => -(n : Int)
  | '+' :: cs => (digitsToNat cs).map fun n => (n : Int)
  | cs => (digitsToNat cs).map fun n => (n : Int)

/-- The `/analyze` handler from the argument checks onward (lines 59-153),
with the network abstracted as an oracle `fetch` from token id to fetch
outcome: reject an argument count other than three (lines 59-61), reject
non-integer bounds (lines 63-69), then run the pipeline over the range
(submission order; completion order is arbitrary, and the downstream
theorems quantify over arbitrary result orders through `analyzeCore`). -/
def analyzeRun (args : List String) (fetch : Int → Option Doc) : Outcome :=
  if args.length ≠ 3 then .usageError
  else
    match args with
    | [_cid, start_id, end_id] =>
        match toIntPy start_id, toIntPy end_id with
        | some s, some e => analyzeCore ((tokenRange s e).map fun i => (i, fetch i))
        | _, _ => .nonIntegerBounds
    | _ => .usageError

/-! ### The gateway fetcher (`fetch_metadata`, lines 86-96) -/

/-- What the network does for one URL: `err` models `requests.get` raising
(timeout, transport failure); `resp ok body` models a response with
status-ok flag `ok` whose body parses to `body` (`none` when `r.json()`
raises). -/
inductive Attempt where
  | err
  | resp (ok : Bool) (body : Option Doc)
deriving DecidableEq, Repr

/-- `url = f"{gw}{cid}/{token_id}{suffix}"` (line 90). -/
def buildUrl (gw cid : String) (tokenId : Int) (sfx : String) : String :=
  gw ++ cid ++ "/" ++ toString tokenId ++ sfx

/-- One gateway/suffix combination (lines 89-95): the attempt yields a
document exactly when the request does not raise, the status is ok, and the
body parses as JSON; every other case falls through to the next
combination. -/
def attemptAt (net : String → Attempt) (gw cid : String) (tokenId : Int) (sfx : String) :
    Option Doc :=
  match net (buildUrl gw cid tokenId sfx) with
  | .err => none
  | .resp ok body => if ok then body else none

/-- The gateway loop (lines 87-95): for each gateway try the bare
identifier, then the `.json`-suffixed one, returning the first document and
short-circuiting the rest. -/
def fetchLoop (net : String → Attempt) (cid : String) (tokenId : Int) :
    List String → Option Doc
  | [] => none
  | gw :: rest =>
      match attemptAt net gw cid tokenId "" with
      | some d => some d
      | none =>
          match attemptAt net gw cid tokenId ".json" with
          | some d => some d
          | none => fetchLoop net cid tokenId rest

/-- `fetch_metadata(token_id)` (lines 86-96): run the gateway loop and fall
back to `(token_id, None)` when everything failed. -/
def fetch_metadata (net : String → Attempt) (gateways : List String) (cid : String)
    (tokenId : Int) : Int × Option Doc :=
  (tokenId, fetchLoop net cid tokenId gateways)

/-- The flattened order of URL attempts the loop makes: for each gateway in
priority order, first the bare identifier, then the `.json`-suffixed one. -/
def urlOrder (gateways : List String) (cid : String) (tokenId : Int) : List String :=
  gateways.flatMap fun gw => [buildUrl gw cid tokenId "", buildUrl gw cid tokenId ".json"]

/-- Whether one attempt succeeds: ok status and a JSON-parseable body. -/
def parseOfAttempt : Attempt → Option Doc
  | .err => none
  | .resp ok body => if ok then body else none

/-! ### Basic lemmas about the frequency table -/

theorem lookupFreq_nil (k : String × Value) : lookupFreq [] k = 0 := rfl

theorem lookupFreq_cons (e : (String × Value) × Nat) (rest : Freq) (k : String × Value) :
    lookupFreq (e :: rest) k = (if e.1 = k then e.2 else 0) + lookupFreq rest k := by
  by_cases h : e.1 = k <;> simp [lookupFreq, h]

theorem traitSum_nil (t : String) : traitSum [] t = 0 := rfl

theorem traitSum_cons (e : (String × Value) × Nat) (rest : Freq) (t : String) :
    traitSum (e :: rest) t = (if e.1.1 = t then e.2 else 0) + traitSum rest t := by
  by_cases h : e.1.1 = t <;> simp [traitSum, h]

theorem lookupFreq_bump (f : Freq) (k k' : String × Value) :
    lookupFreq (bump f k) k' = lookupFreq f k' + (if k' = k then 1 else 0) := by
  induction f with
  | nil =>
    by_cases h : k' = k
    · subst h; simp [bump, lookupFreq_cons, lookupFreq_nil]
    · have h2 : ¬ k = k' := fun hh => h hh.symm
      simp [bump, lookupFreq_cons, lookupFreq_nil, h, h2]
  | cons e rest ih =>
    obtain ⟨ek, en⟩ := e
    simp only [bump]
    by_cases hek : ek = k
    · subst hek
      by_cases h : ek = k'
      · subst h
        simp [lookupFreq_cons, Nat.add_comm, Nat.add_assoc, Nat.add_left_comm]
      · have h2 : ¬ k' = ek := fun hh => h hh.symm
        simp [lookupFreq_cons, h, h2]
    · simp only [if_neg hek, lookupFreq_cons, ih]
      omega

theorem lookupFreq_foldl_bump (os : List (String × Value)) (f : Freq) (k : String × Value) :
    lookupFreq (os.foldl bump f) k = lookupFreq f k + os.count k := by
  induction os generalizing f with
  | nil => simp
  | cons o os ih =>
    simp only [List.foldl_cons, ih, lookupFreq_bump, List.count_cons, beq_iff_eq]
    by_cases h : k = o
    · simp [h, Nat.add_assoc, Nat.add_comm]
    · have h2 : ¬ o = k := fun hh => h hh.symm
      simp [h, h2]

theorem traitSum_bump (f : Freq) (k : String × Value) (t : String) :
    traitSum (bump f k) t = traitSum f t + (if k.1 = t then 1 else 0) := by
  induction f with
  | nil =>
    by_cases h : k.1 = t <;> simp [bump, traitSum_cons, traitSum_nil, h]
  | cons e rest ih =>
    obtain ⟨ek, en⟩ := e
    simp only [bump]
    by_cases hek : ek = k
    · subst hek
      by_cases h : ek.1 = t <;>
        simp [traitSum_cons, h, Nat.add_comm, Nat.add_assoc, Nat.add_left_comm]
    · simp only [if_neg hek, traitSum_cons, ih]
      omega

theorem traitSum_foldl_bump (os : List (String × Value)) (f : Freq) (t : String) :
    traitSum (os.foldl bump f) t = traitSum f t + (os.filter fun o => o.1 = t).length := by
  induction os generalizing f with
  | nil => simp
  | cons o os ih =>
    simp only [List.foldl_cons, ih, traitSum_bump]
    by_cases h : o.1 = t
    · simp only [h, if_true, List.filter_cons_of_pos, List.length_cons, decide_eq_true_eq]
      omega
    · simp [h]

/-- The table built at lines 105-107 stores, for every pair, exactly its
number of occurrences across the RAW attribute iterations of the kept
documents. -/
theorem lookupFreq_buildFreq (docs : List (Int × Doc)) (k : String × Value) :
    lookupFreq (buildFreq docs) k = countedOccurrences docs k := by
  suffices h : ∀ f, lookupFreq (docs.foldl (fun f d => (qualifying d.2.attrs.iterRaw).foldl bump f) f) k
      = lookupFreq f k + countedOccurrences docs k by
    simpa [buildFreq, lookupFreq] using h []
  induction docs with
  | nil => simp [countedOccurrences]
  | cons d docs ih =>
    intro f
    simp [ih, lookupFreq_foldl_bump, countedOccurrences, Nat.add_assoc]

/-- Per-trait total mass of the built table: the number of qualifying raw
occurrences whose trait_type is `t`. -/
theorem traitSum_buildFreq (docs : List (Int × Doc)) (t : String) :
    traitSum (buildFreq docs) t
      = (docs.map fun d => ((qualifying d.2.attrs.iterRaw).filter fun o => o.1 = t).length).sum := by
  suffices h : ∀ f, traitSum (docs.foldl (fun f d => (qualifying d.2.attrs.iterRaw).foldl bump f) f) t
      = traitSum f t
        + (docs.map fun d => ((qualifying d.2.attrs.iterRaw).filter fun o => o.1 = t).length).sum by
    simpa [buildFreq, traitSum] using h []
  induction docs with
  | nil => simp
  | cons d docs ih =>
    intro f
    simp [ih, traitSum_foldl_bump, Nat.add_assoc]

/-! ### Rank-assignment lemmas -/

/-- In a list sorted descending, the number of elements strictly above a
member equals the index of its first occurrence. -/
theorem length_filter_lt_of_sorted (l : List ℚ) (s : ℚ)
    (hl : l.Pairwise fun a b => b ≤ a) (hs : s ∈ l) :
    (l.filter fun x => s < x).length = l.findIdx fun x => x = s := by
  induction l with
  | nil => cases hs
  | cons a t ih =>
    rcases List.pairwise_cons.mp hl with ⟨ha, ht⟩
    by_cases h : a = s
    · subst h
      have hfil : (a :: t).filter (fun x => a < x) = [] := by
        rw [List.filter_eq_nil_iff]
        intro x hx
        simp only [decide_eq_true_eq, not_lt]
        rcases List.mem_cons.mp hx with rfl | hx
        · exact le_refl x
        · exact ha x hx
      simp [hfil, List.findIdx_cons]
    · have hst : s ∈ t := by
        rcases List.mem_cons.mp hs with rfl | h'
        · exact absurd rfl h
        · exact h'
      have hlt : s < a := lt_of_le_of_ne (ha s hst) fun hh => h hh.symm
      have hne : ¬ (a = s) := h
      rw [List.filter_cons_of_pos (by simpa using hlt), List.findIdx_cons]
      simp [hne, ih ht hst]

/-! ### Scoring lemmas -/

theorem qualifying_nil : qualifying [] = [] := rfl

theorem qualifying_cons_attr (t : String) (v : Value) (es : List Entry) :
    qualifying (Entry.attr t v :: es) = (t, v) :: qualifying es := rfl

theorem qualifying_cons_other (es : List Entry) :
    qualifying (Entry.other :: es) = qualifying es := rfl

/-- The scoring loop accumulates, at full precision, exactly one
`1 / (freq / total)` term per qualifying entry. -/
theorem scoreToken_fst (f : Freq) (total : Nat) (es : List Entry) :
    (scoreToken f total es).1
      = ((qualifying es).map fun p => 1 / ((lookupFreq f p : ℚ) / (total : ℚ))).sum := by
  suffices h : ∀ acc : ℚ × List (String × Value),
      (es.foldl (scoreStep f total) acc).1
        = acc.1 + ((qualifying es).map fun p => 1 / ((lookupFreq f p : ℚ) / (total : ℚ))).sum by
    simpa [scoreToken] using h (0, [])
  induction es with
  | nil => intro acc; simp [qualifying_nil]
  | cons e es ih =>
    intro acc
    cases e with
    | attr t v =>
      simp [scoreStep, qualifying_cons_attr, ih, add_assoc]
    | other =>
      simp [scoreStep, qualifying_cons_other, ih]

/-! ### Claim theorems -/

/-- A mixed fetch result: token 1 stores its attributes as a list (so the
run passes the `has_valid_attributes` gate), token 2 as a mapping.  Used
only for the C1 record. -/
def mixedResults : FetchResults :=
  [(1, some ⟨true, AttrField.list [Entry.attr "Background" (Value.str "Blue")]⟩),
   (2, some ⟨true, AttrField.mapping [("Background", Value.str "Red")]⟩)]

/-- C1 (code_bug record): the claim that every pair the scorer divides by
has frequency at least 1 fails on the code.  At the failing input both
early-exit gates pass — the kept set is non-empty and token 1's list-shaped
attribute makes `has_valid_attributes` true — so the scoring loop runs over
every kept token; it normalizes token 2's mapping and looks up
("Background", "Red"), but the counting stage iterated that raw dict (its
string keys) and counted nothing, so the stored frequency is 0 and
`1 / (freq / total_tokens)` at line 137 divides by zero. -/
theorem c1_scorer_divides_by_zero_on_mixed_input :
    fetchedDocs mixedResults ≠ []
    ∧ hasValidAttributes (fetchedDocs mixedResults) = true
    ∧ analyzeCore mixedResults ≠ Outcome.noMetadata
    ∧ analyzeCore mixedResults ≠ Outcome.noValidAttributes
    ∧ ((2 : Int), (⟨true, AttrField.mapping [("Background", Value.str "Red")]⟩ : Doc))
        ∈ fetchedDocs mixedResults
    ∧ (("Background", Value.str "Red")
        ∈ qualifying (AttrField.mapping [("Background", Value.str "Red")]).normalize)
    ∧ lookupFreq (buildFreq (fetchedDocs mixedResults)) ("Background", Value.str "Red") = 0 := by
  decide

/-- C2 (code_bug record): the claim that each stored count equals the pair's
occurrences across the NORMALIZED attribute lists fails on the code: a
token whose attributes field is a mapping contributes its pairs to the
normalized lists but nothing to the table, because the counting stage
(lines 105-107) iterates the raw field without the normalization the
scoring stage performs (lines 128-130). -/
theorem c2_count_misses_mapping_attributes :
    specNormalizedCount [(7, ⟨true, AttrField.mapping [("Fur", Value.str "Gold")]⟩)]
        ("Fur", Value.str "Gold") = 1
    ∧ lookupFreq (buildFreq [(7, ⟨true, AttrField.mapping [("Fur", Value.str "Gold")]⟩)])
        ("Fur", Value.str "Gold") = 0 := by
  decide

/-- C3: rank assignment follows minimum competition ranking — on a
descending-sorted score list every rank is one plus the index of the first
entry carrying the same score, every rank is an integer at least 1, and the
two pinned examples hold: [10, 10, 8] ranks as [1, 1, 3] and
[12, 12, 9.5, 9.5, 3] ranks as [1, 1, 3, 3, 5]. -/
theorem c3_rank_min_competition (scores : List ℚ)
    (hs : scores.Pairwise fun a b => b ≤ a) :
    rankMin scores = (scores.map fun s => 1 + scores.findIdx fun x => x = s)
    ∧ (∀ r ∈ rankMin scores, 1 ≤ r)
    ∧ rankMin [10, 10, 8] = [1, 1, 3]
    ∧ rankMin [12, 12, 19/2, 19/2, 3] = [1, 1, 3, 3, 5] := by
  refine ⟨?_, ?_, by norm_num [rankMin, List.filter_cons],
    by norm_num [rankMin, List.filter_cons]⟩
  · unfold rankMin
    apply List.map_congr_left
    intro s hsm
    rw [length_filter_lt_of_sorted scores s hs hsm]
  · intro r hr
    simp only [rankMin, List.mem_map] at hr
    obtain ⟨s, _, rfl⟩ := hr
    exact Nat.le_add_right 1 _

/-- Witness for C3 at the spec's pinned example list. -/
theorem c3_rank_min_competition_witness :
    (([12, 12, 19/2, 19/2, 3] : List ℚ).Pairwise fun a b => b ≤ a)
    ∧ rankMin [12, 12, 19/2, 19/2, 3]
        = (([12, 12, 19/2, 19/2, 3] : List ℚ).map fun s =>
            1 + ([12, 12, 19/2, 19/2, 3] : List ℚ).findIdx fun x => x = s) :=
  ⟨by norm_num [List.pairwise_cons],
    (c3_rank_min_competition [12, 12, 19/2, 19/2, 3] (by norm_num [List.pairwise_cons])).1⟩

/-- C4: for every token, the recorded rarity score is the full-precision sum
of `total_token_count / frequency` over the qualifying (trait_type, value)
pairs of its normalized attribute list, rounded to 4 decimal digits exactly
once at the end (the per-contribution form `1 / (freq / total)` equals
`total / freq` exactly). -/
theorem c4_score_is_total_over_freq_rounded_once (docs : List (Int × Doc))
    (_htot : 0 < docs.length)
    (_hfreq : ∀ d ∈ docs, ∀ p ∈ qualifying d.2.attrs.normalize,
      0 < lookupFreq (buildFreq docs) p) :
    rarityData docs = docs.map fun d =>
      { token_id := d.1,
        rarity_score := round4 (((qualifying d.2.attrs.normalize).map fun p =>
          (docs.length : ℚ) / (lookupFreq (buildFreq docs) p : ℚ)).sum),
        traits := (scoreToken (buildFreq docs) docs.length d.2.attrs.normalize).2 } := by
  unfold rarityData
  apply List.map_congr_left
  intro d _hd
  simp only [scoreToken_fst]
  have hmap : ((qualifying d.2.attrs.normalize).map fun p =>
        1 / ((lookupFreq (buildFreq docs) p : ℚ) / (docs.length : ℚ)))
      = (qualifying d.2.attrs.normalize).map fun p =>
        (docs.length : ℚ) / (lookupFreq (buildFreq docs) p : ℚ) := by
    apply List.map_congr_left
    intro p _
    rw [one_div_div]
  rw [hmap]

/-- The spec's end-to-end scenario (three tokens, Background Blue/Blue/Red),
used only to instantiate witnesses. -/
def exampleDocs : List (Int × Doc) :=
  [(1, ⟨true, AttrField.list [Entry.attr "Background" (Value.str "Blue")]⟩),
   (2, ⟨true, AttrField.list [Entry.attr "Background" (Value.str "Blue")]⟩),
   (3, ⟨true, AttrField.list [Entry.attr "Background" (Value.str "Red")]⟩)]

/-- Witness for C4 at the spec's end-to-end scenario. -/
theorem c4_score_is_total_over_freq_rounded_once_witness :
    0 < exampleDocs.length
    ∧ (∀ d ∈ exampleDocs, ∀ p ∈ qualifying d.2.attrs.normalize,
        0 < lookupFreq (buildFreq exampleDocs) p)
    ∧ rarityData exampleDocs = exampleDocs.map fun d =>
        { token_id := d.1,
          rarity_score := round4 (((qualifying d.2.attrs.normalize).map fun p =>
            (exampleDocs.length : ℚ) / (lookupFreq (buildFreq exampleDocs) p : ℚ)).sum),
          traits := (scoreToken (buildFreq exampleDocs) exampleDocs.length
            d.2.attrs.normalize).2 } :=
  ⟨by decide, by decide,
    c4_score_is_total_over_freq_rounded_once exampleDocs (by decide) (by decide)⟩

/-- C5 counterexample: the claim's bound `count ≤ total_token_count` (and,
at the same input, its saturation clause) fails on the code.  A single
fetched token whose attribute list repeats ("Background", "Blue") twice
gets count 2 while total_token_count is 1, because the loop increments once
per occurrence with no within-token de-duplication. -/
theorem c5_counterexample_count_exceeds_total :
    ¬ (lookupFreq (buildFreq [(1, ⟨true, AttrField.list
            [Entry.attr "Background" (Value.str "Blue"),
             Entry.attr "Background" (Value.str "Blue")]⟩)])
          ("Background", Value.str "Blue")
        ≤ [(1, (⟨true, AttrField.list
            [Entry.attr "Background" (Value.str "Blue"),
             Entry.attr "Background" (Value.str "Blue")]⟩ : Doc))].length)
    ∧ traitSum (buildFreq [(1, ⟨true, AttrField.list
            [Entry.attr "Background" (Value.str "Blue"),
             Entry.attr "Background" (Value.str "Blue")]⟩)]) "Background"
        ≠ [(1, (⟨true, AttrField.list
            [Entry.attr "Background" (Value.str "Blue"),
             Entry.attr "Background" (Value.str "Blue")]⟩ : Doc))].length := by
  decide

/-- C5 as amended: over every non-empty metadata set, each stored count
equals the pair's number of occurrences across the counting-stage (raw)
attribute iterations, hence is at least 1 for every occurring pair; it is
bounded by total_token_count whenever no single token repeats the pair; and
the counts of a trait_type sum to total_token_count whenever every token
contributes exactly one counting-stage occurrence of that trait_type. -/
theorem c5_amended_count_bounds (docs : List (Int × Doc)) (_hne : docs ≠ []) :
    (∀ k : String × Value, lookupFreq (buildFreq docs) k = countedOccurrences docs k)
    ∧ (∀ k : String × Value, 0 < countedOccurrences docs k →
        1 ≤ lookupFreq (buildFreq docs) k)
    ∧ (∀ k : String × Value, (∀ d ∈ docs, (qualifying d.2.attrs.iterRaw).count k ≤ 1) →
        lookupFreq (buildFreq docs) k ≤ docs.length)
    ∧ (∀ t : String,
        (∀ d ∈ docs, ((qualifying d.2.attrs.iterRaw).filter fun p => p.1 = t).length = 1) →
        traitSum (buildFreq docs) t = docs.length) := by
  refine ⟨fun k => lookupFreq_buildFreq docs k, ?_, ?_, ?_⟩
  · intro k hk
    rw [lookupFreq_buildFreq]
    omega
  · intro k hk
    rw [lookupFreq_buildFreq]
    unfold countedOccurrences
    calc (docs.map fun d => (qualifying d.2.attrs.iterRaw).count k).sum
        ≤ (docs.map fun _ => 1).sum := List.sum_le_sum hk
      _ = docs.length := by simp
  · intro t ht
    rw [traitSum_buildFreq]
    rw [List.map_congr_left ht]
    simp

/-- A two-token set with Background Blue/Red, used only to instantiate the
C5 witness. -/
def pairDocs : List (Int × Doc) :=
  [(1, ⟨true, AttrField.list [Entry.attr "Background" (Value.str "Blue")]⟩),
   (2, ⟨true, AttrField.list [Entry.attr "Background" (Value.str "Red")]⟩)]

/-- Witness for C5 as amended, at a two-token set with Background
Blue/Red. -/
theorem c5_amended_count_bounds_witness :
    pairDocs ≠ []
    ∧ ((∀ k : String × Value,
          lookupFreq (buildFreq pairDocs) k = countedOccurrences pairDocs k)
      ∧ (∀ k : String × Value, 0 < countedOccurrences pairDocs k →
          1 ≤ lookupFreq (buildFreq pairDocs) k)
      ∧ (∀ k : String × Value,
          (∀ d ∈ pairDocs, (qualifying d.2.attrs.iterRaw).count k ≤ 1) →
          lookupFreq (buildFreq pairDocs) k ≤ pairDocs.length)
      ∧ (∀ t : String,
          (∀ d ∈ pairDocs,
            ((qualifying d.2.attrs.iterRaw).filter fun p => p.1 = t).length = 1) →
          traitSum (buildFreq pairDocs) t = pairDocs.length)) :=
  ⟨by decide, c5_amended_count_bounds pairDocs (by decide)⟩

/-- C6: when every token fetches successfully (a truthy document for every
result) but no token carries an attribute entry shaped as a dict with both
a trait_type and a value key, the run reports the distinct "no valid
attributes" condition, which differs from the empty-fetch condition, and
produces neither output artifact. -/
theorem c6_no_valid_attributes_condition (results : FetchResults)
    (hne : results ≠ [])
    (hall : ∀ r ∈ results, ∃ d, r.2 = some d ∧ d.truthy = true)
    (hno : ∀ p ∈ fetchedDocs results, ∀ e ∈ p.2.attrs.iterRaw, e.isShapedAttr = false) :
    analyzeCore results = Outcome.noValidAttributes
    ∧ Outcome.noValidAttributes ≠ Outcome.noMetadata
    ∧ ∀ rows arch, analyzeCore results ≠ Outcome.success rows arch := by
  have hdocs_ne : fetchedDocs results ≠ [] := by
    cases results with
    | nil => exact absurd rfl hne
    | cons r rest =>
      obtain ⟨d, hd, htr⟩ := hall r (List.mem_cons_self r rest)
      simp [fetchedDocs, hd, htr]
  have hqual : ∀ p ∈ fetchedDocs results, qualifying p.2.attrs.iterRaw = [] := by
    intro p hp
    rw [qualifying, List.filterMap_eq_nil_iff]
    intro e he
    have hne' := hno p hp e he
    cases e with
    | attr t v => exact absurd hne' (by simp [Entry.isShapedAttr])
    | other => rfl
  have hval : hasValidAttributes (fetchedDocs results) = false := by
    unfold hasValidAttributes
    rw [List.any_eq_false]
    intro p hp
    simp [hqual p hp]
  have heq : analyzeCore results = Outcome.noValidAttributes := by
    simp [analyzeCore, hval, List.isEmpty_iff, hdocs_ne]
  exact ⟨heq, by decide, fun rows arch h => by rw [heq] at h; cases h⟩

/-- Witness for C6: a single fetched token whose only attribute entry lacks
the required shape. -/
theorem c6_no_valid_attributes_condition_witness :
    ([((1 : Int), some (⟨true, AttrField.list [Entry.other]⟩ : Doc))] ≠ ([] : FetchResults))
    ∧ (∀ r ∈ [((1 : Int), some (⟨true, AttrField.list [Entry.other]⟩ : Doc))],
        ∃ d, r.2 = some d ∧ d.truthy = true)
    ∧ (∀ p ∈ fetchedDocs [((1 : Int), some (⟨true, AttrField.list [Entry.other]⟩ : Doc))],
        ∀ e ∈ p.2.attrs.iterRaw, e.isShapedAttr = false)
    ∧ analyzeCore [((1 : Int), some (⟨true, AttrField.list [Entry.other]⟩ : Doc))]
        = Outcome.noValidAttributes :=
  ⟨by decide, by decide, by decide,
    (c6_no_valid_attributes_condition
      [((1 : Int), some (⟨true, AttrField.list [Entry.other]⟩ : Doc))]
      (by decide) (by decide) (by decide)).1⟩

/-- C7: a run in which no token yields (truthy) metadata reports the "no
metadata fetched" condition and produces neither artifact; in particular a
reversed range performs zero fetch attempts and ends in that same
condition. -/
theorem c7_no_metadata_condition (results : FetchResults) (s e : Int)
    (hempty : fetchedDocs results = []) (hrev : e < s) :
    (analyzeCore results = Outcome.noMetadata
      ∧ ∀ rows arch, analyzeCore results ≠ Outcome.success rows arch)
    ∧ (tokenRange s e = []
      ∧ ∀ fetch : Int → Option Doc,
          analyzeCore ((tokenRange s e).map fun i => (i, fetch i)) = Outcome.noMetadata) := by
  have hrange : tokenRange s e = [] := by
    unfold tokenRange
    rw [Int.toNat_of_nonpos (by omega)]
    rfl
  have hcore : analyzeCore results = Outcome.noMetadata := by
    simp [analyzeCore, hempty]
  exact ⟨⟨hcore, fun rows arch h => by rw [hcore] at h; cases h⟩,
    hrange, fun fetch => by rw [hrange]; rfl⟩

/-- Witness for C7: one failed fetch, and the reversed range 3..1. -/
theorem c7_no_metadata_condition_witness :
    fetchedDocs [((5 : Int), (none : Option Doc))] = []
    ∧ ((1 : Int) < 3)
    ∧ analyzeCore [((5 : Int), (none : Option Doc))] = Outcome.noMetadata
    ∧ tokenRange 3 1 = [] :=
  ⟨by decide, by decide,
    ((c7_no_metadata_condition [((5 : Int), none)] 3 1 (by decide) (by decide)).1).1,
    ((c7_no_metadata_condition [((5 : Int), none)] 3 1 (by decide) (by decide)).2).1⟩

/-- C8: a request with a wrong argument count or a non-integer bound is
rejected with the corresponding corrective reply; the outcome does not
depend on the fetch oracle (no network attempt is consulted) and no
artifact-producing outcome is reached. -/
theorem c8_malformed_input_rejected (args : List String) (fetch fetch' : Int → Option Doc)
    (hbad : args.length ≠ 3
      ∨ ∃ cid sid eid, args = [cid, sid, eid] ∧ (toIntPy sid = none ∨ toIntPy eid = none)) :
    (analyzeRun args fetch = Outcome.usageError
      ∨ analyzeRun args fetch = Outcome.nonIntegerBounds)
    ∧ analyzeRun args fetch = analyzeRun args fetch'
    ∧ ∀ rows arch, analyzeRun args fetch ≠ Outcome.success rows arch := by
  rcases hbad with hlen | ⟨cid, sid, eid, rfl, hparse⟩
  · have h1 : analyzeRun args fetch = Outcome.usageError := by simp [analyzeRun, hlen]
    have h2 : analyzeRun args fetch' = Outcome.usageError := by simp [analyzeRun, hlen]
    exact ⟨Or.inl h1, h1.trans h2.symm, fun rows arch h => by rw [h1] at h; cases h⟩
  · have hrun : ∀ g : Int → Option Doc,
        analyzeRun [cid, sid, eid] g = Outcome.nonIntegerBounds := by
      intro g
      rcases hparse with h | h
      · simp [analyzeRun, h]
      · cases h2 : toIntPy sid <;> simp [analyzeRun, h, h2]
    exact ⟨Or.inr (hrun fetch), (hrun fetch).trans (hrun fetch').symm,
      fun rows arch h => by rw [hrun fetch] at h; cases h⟩

/-- Witness for C8: a non-integer start bound. -/
theorem c8_malformed_input_rejected_witness :
    ((["QmX", "abc", "5"] : List String).length ≠ 3
      ∨ ∃ cid sid eid, (["QmX", "abc", "5"] : List String) = [cid, sid, eid]
          ∧ (toIntPy sid = none ∨ toIntPy eid = none))
    ∧ (analyzeRun ["QmX", "abc", "5"] (fun _ => none) = Outcome.usageError
      ∨ analyzeRun ["QmX", "abc", "5"] (fun _ => none) = Outcome.nonIntegerBounds) :=
  ⟨Or.inr ⟨"QmX", "abc", "5", rfl, Or.inl (by decide)⟩,
    (c8_malformed_input_rejected ["QmX", "abc", "5"] (fun _ => none) (fun _ => none)
      (Or.inr ⟨"QmX", "abc", "5", rfl, Or.inl (by decide)⟩)).1⟩

theorem attemptAt_eq_parse (net : String → Attempt) (gw cid : String) (tokenId : Int)
    (sfx : String) :
    attemptAt net gw cid tokenId sfx = parseOfAttempt (net (buildUrl gw cid tokenId sfx)) := by
  unfold attemptAt parseOfAttempt
  rfl

/-- C9: the fetcher attempts URLs in the fixed order "each gateway in
priority order, bare identifier before `.json` suffix", returns the first
attempt whose response has an ok status and a JSON-parseable body
(short-circuiting the rest), and yields `(token_id, none)` without raising
when every combination fails — each combination's transport or parse
failure affects only that combination. -/
theorem c9_fetch_first_parseable_ok (net : String → Attempt) (gateways : List String)
    (cid : String) (tokenId : Int) :
    fetch_metadata net gateways cid tokenId
      = (tokenId, (urlOrder gateways cid tokenId).findSome? fun u => parseOfAttempt (net u)) := by
  unfold fetch_metadata
  congr 1
  induction gateways with
  | nil => rfl
  | cons gw rest ih =>
    have hu : urlOrder (gw :: rest) cid tokenId
        = buildUrl gw cid tokenId ""
            :: buildUrl gw cid tokenId ".json" :: urlOrder rest cid tokenId := by
      simp [urlOrder]
    rw [hu]
    unfold fetchLoop
    rw [attemptAt_eq_parse, attemptAt_eq_parse]
    cases h1 : parseOfAttempt (net (buildUrl gw cid tokenId "")) with
    | some d => simp [List.findSome?_cons, h1]
    | none =>
      cases h2 : parseOfAttempt (net (buildUrl gw cid tokenId ".json")) with
      | some d => simp [List.findSome?_cons, h1, h2]
      | none => simp [List.findSome?_cons, h1, h2, ih]

/-- C10: a token whose fetch yields an HTTP-OK, JSON-parseable document that
is Python-falsy is treated exactly like a total fetch failure: the kept
mapping (hence total count, frequency table) and the whole outcome
(report rows and archive alike) equal those of the run where that fetch
returned nothing. -/
theorem c10_falsy_document_is_fetch_failure (pre post : FetchResults) (i : Int) (d : Doc)
    (hfalsy : d.truthy = false) :
    fetchedDocs (pre ++ (i, some d) :: post) = fetchedDocs (pre ++ (i, none) :: post)
    ∧ analyzeCore (pre ++ (i, some d) :: post) = analyzeCore (pre ++ (i, none) :: post) := by
  have h1 : fetchedDocs (pre ++ (i, some d) :: post)
      = fetchedDocs (pre ++ (i, none) :: post) := by
    unfold fetchedDocs
    rw [List.filterMap_append, List.filterMap_append]
    congr 1
    simp [hfalsy]
  exact ⟨h1, by simp [analyzeCore, h1]⟩

/-- Witness for C10 at a concrete falsy document (an empty JSON object:
falsy, no attributes key). -/
theorem c10_falsy_document_is_fetch_failure_witness :
    (Doc.truthy ⟨false, AttrField.missing⟩ = false)
    ∧ analyzeCore ([] ++ ((9 : Int), some (⟨false, AttrField.missing⟩ : Doc)) :: [])
        = analyzeCore ([] ++ ((9 : Int), (none : Option Doc)) :: []) :=
  ⟨rfl, (c10_falsy_document_is_fetch_failure [] [] 9 ⟨false, AttrField.missing⟩ rfl).2⟩

end TgBot
